import Mathlib

/-!
Shallow embedding of `finally_chaincheck.py`, a single-file blockchain
stall monitor: a polling loop that queries an RPC node for the latest
block height, tracks the last observed height and the cycle at which it
last changed, emits stall alerts, and reports always/sometimes health
assertions to an external sink.

The network layer (`query_rpc_node`) either returns the JSON `result`
field (a string, on the happy path) or a dict carrying an `"exception"`
key (all exceptions inside the function are caught).  The main loop is
embedded as a per-cycle step function over an explicit state record.
The step runs in `Except CrashErr` because the hex decode at line 82
(`int(current_block_hex, 16)`) sits outside any exception handler: a
non-hex `result` string raises an uncaught `ValueError` there, and a
`result` string that contains the substring `"exception"` is routed to
the failure branch where `result['exception']` raises `TypeError`.

Python's unbounded integers are modelled as `Int`; cycle counters, which
only ever increment from zero, as `Nat`.  `time.sleep`, `print` text and
`argparse` plumbing carry no state and are not modelled; the `--stop`,
`--tolerance` and `--min` arguments become the `Config` record.
-/

namespace ChainCheck

/-- Value returned by `query_rpc_node`: either the raw `result` field of
the JSON-RPC response (a string on the protocol's happy path) or the
`{"exception": ..., "status": ...}` dict built in the two `except`
arms (lines 32-35). -/
inductive RpcResult where
  | strResult (s : String)
  | errorDict (exc : String)
deriving DecidableEq, Repr

/-- The resolved command-line configuration: `ALLOWED_MISSED_INTERVALS`
(`--tolerance`), `MIN_BLOCK_FOR_ALERT` (`--min`) and `stop_num`
(`--stop`, 0 meaning run forever).  All three are Python ints. -/
structure Config where
  tolerance : Int
  minBlock : Int
  stop : Int
deriving DecidableEq, Repr

/-- The mutable loop state of lines 59-62: `last_block_number` (None
until the first successful poll), `last_block_update`, `update_num`
and `consecutive_stalls`. -/
structure CycleState where
  last_block_number : Option Int
  last_block_update : Nat
  update_num : Nat
  consecutive_stalls : Nat
deriving DecidableEq, Repr

/-- The externally observable signals of one cycle: the
`"exception is not none"` lifecycle event of the failure branch, the
stall-alert and below-threshold prints of the stall branch, the
always/sometimes assertions with their details payload
(current block, last block, cycle), and the `"chain_check_stop"`
shutdown event. -/
inductive Event where
  | exceptionEvent (reason : String)
  | stallAlert (block : Int) (duration : Int)
  | belowThreshold (block : Int)
  | alwaysAssert (pred : Bool) (current : Int) (last : Int) (cycle : Nat)
  | sometimesAssert (pred : Bool) (current : Int) (last : Int) (cycle : Nat)
  | stopEvent
deriving DecidableEq, Repr

/-- Uncaught exceptions that escape the polling loop and abort the
process: `ValueError` from `int(s, 16)` at line 82, and `TypeError`
from indexing a string with `'exception'` at line 76. -/
inductive CrashErr where
  | valueError (s : String)
  | typeError
deriving DecidableEq, Repr

/-- Value of a single hexadecimal digit, as accepted by Python `int(_, 16)`. -/
def hexDigit? (c : Char) : Option Nat :=
  if '0' ≤ c ∧ c ≤ '9' then some (c.toNat - 48)
  else if 'a' ≤ c ∧ c ≤ 'f' then some (c.toNat - 97 + 10)
  else if 'A' ≤ c ∧ c ≤ 'F' then some (c.toNat - 65 + 10)
  else none

/-- Accumulate hex digits left to right; `none` on the first non-digit. -/
def hexDigitsAux : List Char → Nat → Option Nat
  | [], acc => some acc
  | c :: cs, acc =>
    match hexDigit? c with
    | some d => hexDigitsAux cs (16 * acc + d)
    | none => none

/-- Magnitude of a non-empty hex digit string; `none` when empty or on
any non-digit character. -/
def hexMagnitude? : List Char → Option Nat
  | [] => none
  | c :: cs => hexDigitsAux (c :: cs) 0

/-- Drop an optional `0x`/`0X` prefix, as `int(_, 16)` allows. -/
def strip0x : List Char → List Char
  | '0' :: 'x' :: cs => cs
  | '0' :: 'X' :: cs => cs
  | cs => cs

/-- Python `int(s, 16)` (line 82): optional sign, optional `0x` prefix,
then at least one hex digit; `none` models the `ValueError` raise.
Surrounding whitespace and `_` digit separators, which CPython also
accepts, are not modelled; no claim depends on them. -/
def pyIntHex (s : String) : Option Int :=
  match s.data with
  | '-' :: cs => (hexMagnitude? (strip0x cs)).map (fun n => -(n : Int))
  | '+' :: cs => (hexMagnitude? (strip0x cs)).map (fun n => (n : Int))
  | cs => (hexMagnitude? (strip0x cs)).map (fun n => (n : Int))

/-- Decimal digit value, for Python `int(s)` with base 10. -/
def decDigit? (c : Char) : Option Nat :=
  if '0' ≤ c ∧ c ≤ '9' then some (c.toNat - 48) else none

/-- Accumulate decimal digits; `none` on the first non-digit. -/
def decDigitsAux : List Char → Nat → Option Nat
  | [], acc => some acc
  | c :: cs, acc =>
    match decDigit? c with
    | some d => decDigitsAux cs (10 * acc + d)
    | none => none

/-- Magnitude of a non-empty decimal digit string. -/
def decMagnitude? : List Char → Option Nat
  | [] => none
  | c :: cs => decDigitsAux (c :: cs) 0

/-- Python `int(s)` on a string (base 10), as called at line 108 when the
guarded value is a string without a `0x` prefix. -/
def pyIntDec (s : String) : Option Int :=
  match s.data with
  | '-' :: cs => (decMagnitude? cs).map (fun n => -(n : Int))
  | '+' :: cs => (decMagnitude? cs).map (fun n => (n : Int))
  | cs => (decMagnitude? cs).map (fun n => (n : Int))

/-- Does `pat` occur as a prefix of `text`? -/
def startsWithList : List Char → List Char → Bool
  | [], _ => true
  | _ :: _, [] => false
  | p :: ps, c :: cs => p == c && startsWithList ps cs

/-- Does `pat` occur as a contiguous sublist of `text`?  Models Python's
substring test `pat in text` on strings. -/
def containsList (pat : List Char) : List Char → Bool
  | [] => startsWithList pat []
  | c :: cs => startsWithList pat (c :: cs) || containsList pat cs

/-- The characters of the literal key `"exception"`. -/
def exceptionChars : List Char :=
  ['e', 'x', 'c', 'e', 'p', 't', 'i', 'o', 'n']

/-- Line 72/74 dispatch on a string result: `"exception" in result` is
Python substring containment when `result` is a `str`. -/
def containsException (s : String) : Bool :=
  containsList exceptionChars s.data

/-- A Python runtime value as it can appear at line 108: the stall branch
guards its conversion with `isinstance(current_block, str)`. -/
inductive PyVal where
  | int (n : Int)
  | str (s : String)
deriving DecidableEq, Repr

/-- Line 108: `int(current_block, 16) if isinstance(current_block, str)
and current_block.startswith('0x') else int(current_block)`.  Python
`int` applied to an int is the identity; applied to a string it parses
(and can raise, modelled as `none`). -/
def convertGuarded : PyVal → Option Int
  | PyVal.int n => some n
  | PyVal.str s =>
    if startsWithList ['0', 'x'] s.data then pyIntHex s else pyIntDec s

/-- Lines 87-114: the state update and branch-local events of a
successful poll.  `st` already carries the incremented `update_num`;
`current_block` is the decoded height.  Follows the source's branch
order: initialize when `last_block_number is None`, update on
`current_block != last_block_number`, otherwise the stall branch. -/
def updateState (cfg : Config) (st : CycleState) (current_block : Int) :
    CycleState × List Event :=
  match st.last_block_number with
  | none =>
    ({ st with
        last_block_number := some current_block
        last_block_update := st.update_num
        consecutive_stalls := 0 }, [])
  | some last =>
    if current_block ≠ last then
      ({ st with
          last_block_number := some current_block
          last_block_update := st.update_num
          consecutive_stalls := 0 }, [])
    else
      let stall_duration : Int :=
        (st.update_num : Int) - (st.last_block_update : Int)
      if stall_duration > cfg.tolerance then
        match convertGuarded (PyVal.int current_block) with
        | some current_block_int =>
          if current_block_int ≥ cfg.minBlock then
            ({ st with consecutive_stalls := st.consecutive_stalls + 1 },
             [Event.stallAlert current_block stall_duration])
          else
            (st, [Event.belowThreshold current_block])
        | none => (st, [])
      else
        (st, [])

/-- Variant of `updateState` with the line-108 guarded conversion
replaced by the identity on the already-decoded integer, as the spec's
redesign note prescribes.  Used only to state the dead-logic claim. -/
def updateStateId (cfg : Config) (st : CycleState) (current_block : Int) :
    CycleState × List Event :=
  match st.last_block_number with
  | none =>
    ({ st with
        last_block_number := some current_block
        last_block_update := st.update_num
        consecutive_stalls := 0 }, [])
  | some last =>
    if current_block ≠ last then
      ({ st with
          last_block_number := some current_block
          last_block_update := st.update_num
          consecutive_stalls := 0 }, [])
    else
      let stall_duration : Int :=
        (st.update_num : Int) - (st.last_block_update : Int)
      if stall_duration > cfg.tolerance then
        if current_block ≥ cfg.minBlock then
          ({ st with consecutive_stalls := st.consecutive_stalls + 1 },
           [Event.stallAlert current_block stall_duration])
        else
          (st, [Event.belowThreshold current_block])
      else
        (st, [])

/-- Lines 116-134: the details payload is built from the post-update
state, then the `always` assertion fires when `last_block_number` is
not `None` and the node was reachable, and the `sometimes` assertion
fires unconditionally.  Both predicates are
`current_block >= last_block_number` against the post-update value.
The `none` arm mirrors the source, where the comparison against `None`
would itself raise; it is unreachable after `updateState` (every branch
leaves `last_block_number` set). -/
def assertionEvents (node_reachable : Bool) (current_block : Int)
    (st : CycleState) : List Event :=
  match st.last_block_number with
  | none => []
  | some last =>
    let pred := decide (current_block ≥ last)
    (if node_reachable then
        [Event.alwaysAssert pred current_block last st.update_num]
      else []) ++
    [Event.sometimesAssert pred current_block last st.update_num]

/-- One iteration of the `while True` body up to (but excluding) the exit
check: increment `update_num`, dispatch on `"exception" in result`,
decode the hex height, update state, and emit the assertions.
Crashes (`Except.error`) model uncaught exceptions that abort the
process: `result['exception']` on a string result containing the
substring `"exception"` (line 76), and a failed `int(_, 16)`
(line 82). -/
def cycleStep (cfg : Config) (st0 : CycleState) (res : RpcResult) :
    Except CrashErr (CycleState × List Event) :=
  let st := { st0 with update_num := st0.update_num + 1 }
  match res with
  | RpcResult.errorDict exc =>
    Except.ok (st, [Event.exceptionEvent exc])
  | RpcResult.strResult s =>
    if containsException s then
      Except.error CrashErr.typeError
    else
      match pyIntHex s with
      | none => Except.error (CrashErr.valueError s)
      | some current_block =>
        let r := updateState cfg st current_block
        Except.ok (r.1, r.2 ++ assertionEvents true current_block r.1)

/-- One full loop iteration including the exit condition of lines
139-143: after the body, if `update_num == stop_num` the
`"chain_check_stop"` event is emitted and the loop breaks (the returned
flag `true` marks the normal, status-0 exit). -/
def loopCycle (cfg : Config) (st : CycleState) (res : RpcResult) :
    Except CrashErr (CycleState × List Event × Bool) :=
  match cycleStep cfg st res with
  | Except.error e => Except.error e
  | Except.ok (st2, evs) =>
    if (st2.update_num : Int) = cfg.stop then
      Except.ok (st2, evs ++ [Event.stopEvent], true)
    else
      Except.ok (st2, evs, false)

/-- Run the loop over a finite supply of poll results, recording each
cycle's post-state and events.  The flag reports whether the loop broke
(reached the stop count) while consuming the supply; `false` means the
loop would keep running. -/
def runPolls (cfg : Config) : CycleState → List RpcResult →
    Except CrashErr (List (CycleState × List Event) × Bool)
  | _, [] => Except.ok ([], false)
  | st, r :: rs =>
    match loopCycle cfg st r with
    | Except.error e => Except.error e
    | Except.ok (st2, evs, stopped) =>
      if stopped then Except.ok ([(st2, evs)], true)
      else
        match runPolls cfg st2 rs with
        | Except.error e => Except.error e
        | Except.ok (trace, b) => Except.ok ((st2, evs) :: trace, b)

/-- Initial loop state of lines 59-62. -/
def initState : CycleState :=
  { last_block_number := none
    last_block_update := 0
    update_num := 0
    consecutive_stalls := 0 }

/-- Run the monitor from startup over a finite supply of poll results. -/
def run (cfg : Config) (polls : List RpcResult) :
    Except CrashErr (List (CycleState × List Event) × Bool) :=
  runPolls cfg initState polls

/-- A poll result on which the loop body cannot crash: either the
exception dict, or a result string free of the `"exception"` substring
that decodes as hex. -/
def noCrash : RpcResult → Bool
  | RpcResult.errorDict _ => true
  | RpcResult.strResult s => !containsException s && (pyIntHex s).isSome

/-- The stall alerts among a cycle's events, as (block, duration) pairs. -/
def stallAlerts (evs : List Event) : List (Int × Int) :=
  evs.filterMap fun e =>
    match e with
    | Event.stallAlert b d => some (b, d)
    | _ => none

/-- All stall alerts of a run, tagged with the cycle number they fired
on; empty when the run crashed. -/
def traceStallAlerts
    (out : Except CrashErr (List (CycleState × List Event) × Bool)) :
    List (Nat × Int × Int) :=
  match out with
  | Except.error _ => []
  | Except.ok (trace, _) =>
    (trace.map fun p => (stallAlerts p.2).map fun bd =>
      (p.1.update_num, bd.1, bd.2)).flatten

/-! ## Helper lemmas about the cycle body -/

theorem updateState_last_eq (cfg : Config) (st : CycleState) (b : Int) :
    (updateState cfg st b).1.last_block_number = some b := by
  unfold updateState
  split
  · rfl
  next last hlast =>
    split
    · rfl
    next hb =>
      have hbl : b = last := not_not.mp hb
      simp only [convertGuarded]
      split
      · split
        · simpa [hbl] using hlast
        · simpa [hbl] using hlast
      · simpa [hbl] using hlast

theorem updateState_update_num (cfg : Config) (st : CycleState) (b : Int) :
    (updateState cfg st b).1.update_num = st.update_num := by
  unfold updateState
  split
  · rfl
  · split
    · rfl
    · simp only [convertGuarded]
      split
      · split
        · rfl
        · rfl
      · rfl

theorem updateState_no_assert (cfg : Config) (st : CycleState) (b : Int)
    (p : Bool) (c l : Int) (k : Nat) :
    Event.alwaysAssert p c l k ∉ (updateState cfg st b).2 := by
  unfold updateState
  split
  · simp
  · split
    · simp
    · simp only [convertGuarded]
      split
      · split
        · simp
        · simp
      · simp

/-! ## Claim theorems -/

/-- Claim C1 (code evaluation at the failing input): on the run with
successful poll heights [50, 40] (`min` = 0, `stop` = 2), the second
cycle first advances `last_block_number` to 40 and only then evaluates
the assertions, so the `always` assertion is emitted with predicate
`true` (40 ≥ 40) — never with a false predicate, contrary to the
claim that the regression is reported as a violated invariant. -/
theorem c1_regression_run :
    run ⟨1, 0, 2⟩ [RpcResult.strResult "0x32", RpcResult.strResult "0x28"] =
      Except.ok
        ([(⟨some 50, 1, 1, 0⟩,
           [Event.alwaysAssert true 50 50 1,
            Event.sometimesAssert true 50 50 1]),
          (⟨some 40, 2, 2, 0⟩,
           [Event.alwaysAssert true 40 40 2,
            Event.sometimesAssert true 40 40 2,
            Event.stopEvent])], true) := by
  rfl

/-- Claim C2 (code evaluation at the failing input): a cycle whose RPC
response carries a `result` field that is not a valid hexadecimal
integer string (here `"zz"`) is not recovered: the hex decode at line
82 sits outside every exception handler, so the cycle crashes with an
uncaught `ValueError` and the process terminates abnormally instead of
reporting an event and proceeding. -/
theorem c2_decode_crash :
    run ⟨1, 0, 5⟩ [RpcResult.strResult "zz"] =
      Except.error (CrashErr.valueError "zz") := by
  rfl

/-- Claim C5: on every cycle whose poll fails (the RPC client returned
the exception dict), the tracked state — last known height,
last-changed cycle index, and the consecutive-stall counter — is
exactly the same after the cycle as before it; the cycle emits only
the failure event. -/
theorem c5_failure_frame (cfg : Config) (st : CycleState) (reason : String) :
    ∃ st2, cycleStep cfg st (RpcResult.errorDict reason) =
        Except.ok (st2, [Event.exceptionEvent reason]) ∧
      st2.last_block_number = st.last_block_number ∧
      st2.last_block_update = st.last_block_update ∧
      st2.consecutive_stalls = st.consecutive_stalls :=
  ⟨_, rfl, rfl, rfl, rfl⟩

/-- Claim C6: in the run with successful poll heights [10, 10, 10, 10],
tolerance = 1, stop = 4, min = 0, no stall alert fires on cycles 1 and
2, and a stall alert fires on cycle 3 with stall duration 2 and on
cycle 4 with stall duration 3 — the alerts of the whole run are
exactly those two. -/
theorem c6_scenario1 :
    traceStallAlerts
        (run ⟨1, 0, 4⟩ (List.replicate 4 (RpcResult.strResult "0xa"))) =
      [(3, 10, 2), (4, 10, 3)] := by
  rfl

/-- Claim C7: in the run where the first poll fails and the second and
third return height 100 (tolerance = 1, stop = 3): cycle 1 produces
only the failure event and leaves the tracking state untouched, cycle
2 initializes the baseline to height 100 with last-changed cycle 2,
and cycle 3 leaves the baseline at cycle 2 (stall duration
3 - 2 = 1 ≤ tolerance) and fires no alert. -/
theorem c7_scenario3 :
    run ⟨1, 0, 3⟩
        [RpcResult.errorDict "connection refused",
         RpcResult.strResult "0x64", RpcResult.strResult "0x64"] =
      Except.ok
        ([(⟨none, 0, 1, 0⟩,
           [Event.exceptionEvent "connection refused"]),
          (⟨some 100, 2, 2, 0⟩,
           [Event.alwaysAssert true 100 100 2,
            Event.sometimesAssert true 100 100 2]),
          (⟨some 100, 2, 3, 0⟩,
           [Event.alwaysAssert true 100 100 3,
            Event.sometimesAssert true 100 100 3,
            Event.stopEvent])], true) := by
  rfl

/-- Claim C8: the hex-to-int conversion of line 108, guarded by a string
type check, is dead logic — on the already-decoded integer it is the
identity (`int(current_block)` with `current_block` an int), so the
whole stall-branch update is unchanged when the guarded conversion is
replaced by the identity function. -/
theorem c8_dead_conversion :
    (∀ n : Int, convertGuarded (PyVal.int n) = some n) ∧
    (∀ (cfg : Config) (st : CycleState) (b : Int),
      updateState cfg st b = updateStateId cfg st b) :=
  ⟨fun _ => rfl, fun _ _ _ => rfl⟩

/-- Claim C3: on a Tracking-state cycle (a baseline exists) whose poll
returns exactly the last known height, a stall alert fires and the
consecutive-stall counter increments by exactly 1 precisely when the
stall duration (current cycle index minus last-changed cycle index)
strictly exceeds the tolerance and the height is at least the minimum
alert height; otherwise no alert fires and the counter is unchanged. -/
theorem c3_stall_alert (cfg : Config) (st : CycleState) (l : Int) (s : String)
    (hlast : st.last_block_number = some l)
    (hexc : containsException s = false)
    (hdec : pyIntHex s = some l) :
    (((st.update_num + 1 : Nat) : Int) - (st.last_block_update : Int) > cfg.tolerance ∧
        l ≥ cfg.minBlock →
      ∃ st2 evs, cycleStep cfg st (RpcResult.strResult s) = Except.ok (st2, evs) ∧
        Event.stallAlert l
            (((st.update_num + 1 : Nat) : Int) - (st.last_block_update : Int)) ∈ evs ∧
        st2.consecutive_stalls = st.consecutive_stalls + 1) ∧
    (¬ (((st.update_num + 1 : Nat) : Int) - (st.last_block_update : Int) > cfg.tolerance ∧
        l ≥ cfg.minBlock) →
      ∃ st2 evs, cycleStep cfg st (RpcResult.strResult s) = Except.ok (st2, evs) ∧
        (∀ b d, Event.stallAlert b d ∉ evs) ∧
        st2.consecutive_stalls = st.consecutive_stalls) := by
  obtain ⟨lastb, lbu, un, cst⟩ := st
  obtain rfl : lastb = some l := hlast
  have hstep : ∀ r : CycleState × List Event,
      updateState cfg ⟨some l, lbu, un + 1, cst⟩ l = r →
      cycleStep cfg ⟨some l, lbu, un, cst⟩ (RpcResult.strResult s) =
        Except.ok (r.1, r.2 ++ assertionEvents true l r.1) := by
    intro r hr
    simp [cycleStep, hexc, hdec, hr]
  constructor
  · rintro ⟨h1, h2⟩
    have hupd : updateState cfg ⟨some l, lbu, un + 1, cst⟩ l =
        (⟨some l, lbu, un + 1, cst + 1⟩,
         [Event.stallAlert l (((un + 1 : Nat) : Int) - (lbu : Int))]) := by
      simp only [updateState, convertGuarded, ne_eq, not_true_eq_false, if_false]
      rw [if_pos h1, if_pos h2]
    exact ⟨_, _, hstep _ hupd, by simp [hupd], by simp [hupd]⟩
  · intro hno
    by_cases h1 : ((un + 1 : Nat) : Int) - (lbu : Int) > cfg.tolerance
    · have h2 : ¬ l ≥ cfg.minBlock := fun hb => hno ⟨h1, hb⟩
      have hupd : updateState cfg ⟨some l, lbu, un + 1, cst⟩ l =
          (⟨some l, lbu, un + 1, cst⟩, [Event.belowThreshold l]) := by
        simp only [updateState, convertGuarded, ne_eq, not_true_eq_false, if_false]
        rw [if_pos h1, if_neg h2]
      refine ⟨_, _, hstep _ hupd, ?_, by simp [hupd]⟩
      intro b d
      simp [hupd, assertionEvents]
    · have hupd : updateState cfg ⟨some l, lbu, un + 1, cst⟩ l =
          (⟨some l, lbu, un + 1, cst⟩, []) := by
        simp only [updateState, convertGuarded, ne_eq, not_true_eq_false, if_false]
        rw [if_neg h1]
      refine ⟨_, _, hstep _ hupd, ?_, by simp [hupd]⟩
      intro b d
      simp [hupd, assertionEvents]

/-- Claim C3 witness: with tolerance 1, minimum height 0, a baseline of
height 10 set at cycle 1 and an equal poll on cycle 3 (stall duration
2), the alert fires and the counter increments from 0 to 1. -/
theorem c3_stall_alert_witness :
    ∃ st2 evs, cycleStep ⟨1, 0, 0⟩ ⟨some 10, 1, 2, 0⟩ (RpcResult.strResult "0xa") =
        Except.ok (st2, evs) ∧
      Event.stallAlert 10 2 ∈ evs ∧
      st2.consecutive_stalls = 1 :=
  (c3_stall_alert ⟨1, 0, 0⟩ ⟨some 10, 1, 2, 0⟩ 10 "0xa" rfl (by decide)
    (by decide)).1 ⟨by decide, by decide⟩

/-- Claim C9: on every successful poll cycle the assertion predicate
(current height ≥ last known height) is evaluated against the
already-updated last known height, so every emitted `always` assertion
carries a true predicate, on every possible height sequence. -/
theorem c9_always_true (cfg : Config) (st : CycleState) (res : RpcResult)
    (st2 : CycleState) (evs : List Event)
    (hok : cycleStep cfg st res = Except.ok (st2, evs))
    (p : Bool) (c l : Int) (k : Nat)
    (hm : Event.alwaysAssert p c l k ∈ evs) : p = true := by
  cases res with
  | errorDict exc =>
    simp only [cycleStep, Except.ok.injEq, Prod.mk.injEq] at hok
    obtain ⟨-, h2⟩ := hok
    subst h2
    simp at hm
  | strResult s =>
    simp only [cycleStep] at hok
    cases hcs : containsException s with
    | true =>
      rw [hcs] at hok
      simp at hok
    | false =>
      rw [hcs] at hok
      simp only [Bool.false_eq_true, if_false] at hok
      cases hph : pyIntHex s with
      | none =>
        rw [hph] at hok
        exact absurd hok (by simp)
      | some b =>
        rw [hph] at hok
        simp only [Except.ok.injEq, Prod.mk.injEq] at hok
        obtain ⟨-, h2⟩ := hok
        subst h2
        rcases List.mem_append.mp hm with hm1 | hm2
        · exact absurd hm1 (updateState_no_assert _ _ _ _ _ _ _)
        · have hl := updateState_last_eq cfg
            { st with update_num := st.update_num + 1 } b
          simp only [assertionEvents, hl, if_true] at hm2
          simp only [List.mem_append, List.mem_singleton] at hm2
          rcases hm2 with hm2 | hm2
          · simp only [List.mem_singleton, Event.alwaysAssert.injEq] at hm2
            obtain ⟨hp, -, -, -⟩ := hm2
            rw [hp]
            simp
          · cases hm2

/-- Claim C9 witness: the first successful poll (height 10 from a fresh
state) emits its `always` assertion with a true predicate. -/
theorem c9_always_true_witness :
    cycleStep ⟨1, 0, 5⟩ initState (RpcResult.strResult "0xa") =
        Except.ok (⟨some 10, 1, 1, 0⟩,
          [Event.alwaysAssert true 10 10 1,
           Event.sometimesAssert true 10 10 1]) ∧
      (true : Bool) = true :=
  ⟨rfl,
    c9_always_true ⟨1, 0, 5⟩ initState (RpcResult.strResult "0xa")
      ⟨some 10, 1, 1, 0⟩
      [Event.alwaysAssert true 10 10 1, Event.sometimesAssert true 10 10 1]
      rfl true 10 10 1 (by decide)⟩

/-- Claim C10: a Tracking-state cycle whose successful poll returns a
height strictly lower than the last known height updates the last
known height to the lower value, sets the last-changed cycle to the
current cycle index, and resets the consecutive-stall counter to zero
— the same update the code performs for forward progress (the branch
tests only `current_block != last_block_number`). -/
theorem c10_regression_update (cfg : Config) (st : CycleState) (l : Int)
    (s : String) (h : Int)
    (hlast : st.last_block_number = some l)
    (hexc : containsException s = false)
    (hdec : pyIntHex s = some h)
    (hlt : h < l) :
    ∃ evs, cycleStep cfg st (RpcResult.strResult s) =
      Except.ok
        ({ last_block_number := some h
           last_block_update := st.update_num + 1
           update_num := st.update_num + 1
           consecutive_stalls := 0 }, evs) := by
  obtain ⟨lastb, lbu, un, cst⟩ := st
  obtain rfl : lastb = some l := hlast
  have hp : decide (h ≥ h) = true := decide_eq_true (le_refl h)
  refine ⟨[Event.alwaysAssert true h h (un + 1),
           Event.sometimesAssert true h h (un + 1)], ?_⟩
  simp [cycleStep, hexc, hdec, updateState, assertionEvents, ne_of_lt hlt, hp]

/-- Claim C10 witness: from a baseline of height 50 set at cycle 1, a
poll of height 40 on cycle 2 moves the baseline down to 40 with
last-changed cycle 2 and stall counter 0. -/
theorem c10_regression_update_witness :
    ∃ evs, cycleStep ⟨1, 0, 0⟩ ⟨some 50, 1, 1, 0⟩ (RpcResult.strResult "0x28") =
      Except.ok (⟨some 40, 2, 2, 0⟩, evs) :=
  c10_regression_update ⟨1, 0, 0⟩ ⟨some 50, 1, 1, 0⟩ 50 "0x28" 40 rfl
    (by decide) (by decide) (by decide)

/-! ## Run-level lemmas for termination -/

theorem cycleStep_noCrash (cfg : Config) (st : CycleState) (r : RpcResult)
    (h : noCrash r = true) :
    ∃ st2 evs, cycleStep cfg st r = Except.ok (st2, evs) ∧
      st2.update_num = st.update_num + 1 := by
  cases r with
  | errorDict exc => exact ⟨_, _, rfl, rfl⟩
  | strResult s =>
    simp only [noCrash, Bool.and_eq_true, Bool.not_eq_true'] at h
    obtain ⟨h1, h2⟩ := h
    rw [Option.isSome_iff_exists] at h2
    obtain ⟨b, hb⟩ := h2
    refine ⟨(updateState cfg { st with update_num := st.update_num + 1 } b).1,
      (updateState cfg { st with update_num := st.update_num + 1 } b).2 ++
        assertionEvents true b
          (updateState cfg { st with update_num := st.update_num + 1 } b).1,
      ?_, ?_⟩
    · simp [cycleStep, h1, hb]
    · rw [updateState_update_num]

theorem runPolls_not_stopped (cfg : Config) :
    ∀ (polls : List RpcResult) (st : CycleState),
    (∀ r ∈ polls, noCrash r = true) →
    (∀ j : Nat, 1 ≤ j → j ≤ polls.length →
      ((st.update_num + j : Nat) : Int) ≠ cfg.stop) →
    ∃ trace, runPolls cfg st polls = Except.ok (trace, false) ∧
      trace.length = polls.length := by
  intro polls
  induction polls with
  | nil => exact fun st _ _ => ⟨[], rfl, rfl⟩
  | cons r rs ih =>
    intro st hnc hstop
    obtain ⟨st2, evs, hok, hupd⟩ :=
      cycleStep_noCrash cfg st r (hnc r (by simp))
    have hne : ((st2.update_num : Nat) : Int) ≠ cfg.stop := by
      rw [hupd]
      exact hstop 1 le_rfl (by simp)
    obtain ⟨trace, htr, hlen⟩ := ih st2
      (fun r2 hr2 => hnc r2 (by simp [hr2]))
      (by
        intro j hj1 hj2
        rw [hupd]
        have : st.update_num + 1 + j = st.update_num + (j + 1) := by omega
        rw [this]
        exact hstop (j + 1) (by omega) (by simpa using Nat.succ_le_succ hj2))
    refine ⟨(st2, evs) :: trace, ?_, by simp [hlen]⟩
    simp [runPolls, loopCycle, hok, if_neg hne, htr]

theorem runPolls_stopped (cfg : Config) :
    ∀ (polls : List RpcResult) (st : CycleState) (m : Nat),
    (∀ r ∈ polls, noCrash r = true) →
    1 ≤ m → m ≤ polls.length →
    ((st.update_num + m : Nat) : Int) = cfg.stop →
    ∃ trace, runPolls cfg st polls = Except.ok (trace, true) ∧
      trace.length = m ∧
      ∃ stE evsE, trace.getLast? = some (stE, evsE) ∧
        evsE.getLast? = some Event.stopEvent := by
  intro polls
  induction polls with
  | nil =>
    intro st m _ hm1 hm2 _
    simp at hm2
    omega
  | cons r rs ih =>
    intro st m hnc hm1 hm2 hstop
    obtain ⟨st2, evs, hok, hupd⟩ :=
      cycleStep_noCrash cfg st r (hnc r (by simp))
    by_cases hm : m = 1
    · subst hm
      have heq : ((st2.update_num : Nat) : Int) = cfg.stop := by
        rw [hupd]
        exact hstop
      refine ⟨[(st2, evs ++ [Event.stopEvent])], ?_, rfl,
        st2, evs ++ [Event.stopEvent], rfl, ?_⟩
      · simp [runPolls, loopCycle, hok, if_pos heq]
      · exact List.getLast?_concat _
    · have hne : ((st2.update_num : Nat) : Int) ≠ cfg.stop := by
        rw [hupd]
        intro hcontra
        have := hcontra.trans hstop.symm
        rw [Nat.cast_inj] at this
        omega
      obtain ⟨trace, htr, hlen, stE, evsE, hlast2, hstopev⟩ := ih st2 (m - 1)
        (fun r2 hr2 => hnc r2 (by simp [hr2]))
        (by omega)
        (by simp at hm2; omega)
        (by
          rw [hupd]
          have : st.update_num + 1 + (m - 1) = st.update_num + m := by omega
          rw [this, hstop])
      have htne : trace ≠ [] := by
        intro hemp
        rw [hemp] at hlen
        simp at hlen
        omega
      refine ⟨(st2, evs) :: trace, ?_, by simp [hlen]; omega, stE, evsE, ?_, hstopev⟩
      · simp [runPolls, loopCycle, hok, if_neg hne, htr]
      · rcases trace with _ | ⟨t, ts⟩
        · exact absurd rfl htne
        · rw [List.getLast?_cons_cons]
          exact hlast2

/-- Claim C4: with an uninterrupted (crash-free) poll supply, a
configured stop count n ≥ 1 makes the loop break after exactly n
cycles, with the `chain_check_stop` shutdown event as the last event of
the last cycle and the normal (status-0) exit flag set; a stop count of
0 never breaks the loop — after any finite number of cycles it is
still running. -/
theorem c4_termination (cfg : Config) (polls : List RpcResult)
    (hnc : ∀ r ∈ polls, noCrash r = true) :
    (∀ n : Nat, 1 ≤ n → n ≤ polls.length → cfg.stop = (n : Int) →
      ∃ trace, run cfg polls = Except.ok (trace, true) ∧ trace.length = n ∧
        ∃ stE evsE, trace.getLast? = some (stE, evsE) ∧
          evsE.getLast? = some Event.stopEvent) ∧
    (cfg.stop = 0 →
      ∃ trace, run cfg polls = Except.ok (trace, false) ∧
        trace.length = polls.length) := by
  constructor
  · intro n hn1 hn2 hstop
    exact runPolls_stopped cfg polls initState n hnc hn1 hn2
      (by simpa [initState] using hstop.symm)
  · intro hstop
    refine runPolls_not_stopped cfg polls initState hnc ?_
    intro j hj1 _
    simp only [initState, Nat.zero_add, hstop]
    intro hc
    rw [Nat.cast_eq_zero] at hc
    omega

/-- Claim C4 witness: with stop count 2 and three crash-free polls, the
run breaks after exactly 2 cycles and the last event is the shutdown
event. -/
theorem c4_termination_witness :
    ∃ trace, run ⟨1, 0, 2⟩
        [RpcResult.errorDict "down", RpcResult.strResult "0xa",
         RpcResult.strResult "0xb"] = Except.ok (trace, true) ∧
      trace.length = 2 ∧
      ∃ stE evsE, trace.getLast? = some (stE, evsE) ∧
        evsE.getLast? = some Event.stopEvent :=
  (c4_termination ⟨1, 0, 2⟩
    [RpcResult.errorDict "down", RpcResult.strResult "0xa",
     RpcResult.strResult "0xb"] (by decide)).1 2 (by decide) (by decide)
    (by decide)

end ChainCheck
